import Mathlib

/-!
# Verification of DataGristle `gristle/common.py`

Shallow embedding of the dialect-resolution helpers in `gristle/common.py`:
`coalesce`, `dialect_del_fixer` and `get_dialect`, together with the pieces of
the (absent) `file_type` module that `get_dialect` consumes, modelled from the
specification.  Python `None` becomes `Option.none`; exceptions and
`sys.exit` become an `Except` error channel; the per-file analysis performed
by `file_type.FileTyper` is abstracted as an oracle assigning each file name
its on-disk status and the outcome of `analyze_file()` for this invocation's
hint arguments.
-/

set_option autoImplicit false
set_option linter.unusedVariables false

namespace Gristle

/-- Constants of the Python `csv` module: `csv.QUOTE_MINIMAL == 0`. -/
def QUOTE_MINIMAL : Nat := 0

/-- `csv.QUOTE_ALL == 1`. -/
def QUOTE_ALL : Nat := 1

/-- `csv.QUOTE_NONNUMERIC == 2`. -/
def QUOTE_NONNUMERIC : Nat := 2

/-- `csv.QUOTE_NONE == 3`. -/
def QUOTE_NONE : Nat := 3

/-- Modelled from the spec: `file_type.get_quote_number` (the `file_type`
module is not part of the sources).  The spec treats the quoting mode as a
closed enumeration of four names; the function maps a quoting-mode name to
the corresponding `csv` module constant, and an absent or unrecognized name
to `none` (an unset quoting mode). -/
def get_quote_number : Option String → Option Nat
  | none => none
  | some s =>
    if s = "quote_all" then some QUOTE_ALL
    else if s = "quote_minimal" then some QUOTE_MINIMAL
    else if s = "quote_nonnumeric" then some QUOTE_NONNUMERIC
    else if s = "quote_none" then some QUOTE_NONE
    else none

/-- The csv dialect attributes written and returned by `get_dialect`:
`delimiter`, `quoting`, `quotechar`, `lineterminator`, `hasheader`. -/
structure DialectV where
  delimiter : Option String
  quoting : Option Nat
  quotechar : Option String
  lineterminator : String
  hasheader : Option Bool
deriving Repr, DecidableEq

/-- Outcome of `file_type.FileTyper(fn, ...).analyze_file()` for one
candidate file: success with a dialect, the `IOErrorEmptyFile` exception,
or any other exception. -/
inductive AnalysisResult where
  | ok (d : DialectV)
  | emptyFile
  | otherError (msg : String)
deriving Repr, DecidableEq

/-- What `get_dialect` observes about one file name: whether
`os.path.isfile` holds, and what analyzing it yields.  Within a single
invocation the hint arguments passed to `FileTyper` are fixed, so one
oracle per invocation loses nothing. -/
structure FileInfo where
  isfile : Bool
  analysis : AnalysisResult
deriving Repr, DecidableEq

/-- The ways `get_dialect` can terminate abnormally:
`ValueError 'file does not exist: %s'`, `sys.exit(errno.ENODATA)`,
`ValueError "Invalid Delimiter"`, an exception propagated out of
`analyze_file`, the `IndexError` from `files[0]` on an empty list, and the
configuration error the spec describes for a stdin source without a
delimiter hint (present in the source only as commented-out code in
`ArgProcessor.__init__`). -/
inductive GErr where
  | fileDoesNotExist (fn : String)
  | sysExitNoData
  | invalidDelimiter
  | analysisError (msg : String)
  | indexError
  | configurationError
deriving Repr, DecidableEq

/-- The candidate-file loop of `get_dialect` (common.py lines 298-316):
raise `ValueError` for a missing file, take the dialect of the first file
whose analysis succeeds, skip a file whose analysis raises
`IOErrorEmptyFile`, propagate any other analysis error.  Returns `none`
when every candidate was empty. -/
def scan_files (fs : String → FileInfo) : List String → Except GErr (Option DialectV)
  | [] => .ok none
  | fn :: rest =>
    if (fs fn).isfile = false then .error (.fileDoesNotExist fn)
    else
      match (fs fn).analysis with
      | .ok d => .ok (some d)
      | .emptyFile => scan_files fs rest
      | .otherError m => .error (.analysisError m)

/-- The post-resolution validation of `get_dialect` (common.py lines
321-328): an unset quoting mode is replaced by
`get_quote_number('quote_minimal')`; an unset delimiter raises
`ValueError "Invalid Delimiter"`. -/
def normalize (d : DialectV) : Except GErr DialectV :=
  let d1 := if d.quoting = none
            then { d with quoting := get_quote_number (some "quote_minimal") }
            else d
  if d1.delimiter = none then .error .invalidDelimiter else .ok d1

/-- `get_dialect(files, delimiter, quotename, quotechar, recdelimiter,
hasheader)` from common.py lines 265-330.  `fs` is the per-invocation
analysis oracle.  `files[0] == '-'` selects the stdin branch, which builds
the dialect from the hints with `lineterminator = '\n'`; otherwise the
candidate files are scanned in order and `sys.exit(errno.ENODATA)` is
raised if every one was empty.  Both branches pass the dialect through the
final validation.  `recdelimiter` is only forwarded to `FileTyper`, which
the oracle absorbs. -/
def get_dialect (fs : String → FileInfo) (files : List String)
    (delimiter : Option String) (quotename : Option String)
    (quotechar : Option String) (recdelimiter : Option String)
    (hasheader : Option Bool) : Except GErr DialectV :=
  match files with
  | [] => .error .indexError
  | f0 :: _ =>
    if f0 = "-" then
      normalize { delimiter := delimiter
                  quoting := get_quote_number quotename
                  quotechar := quotechar
                  lineterminator := "\n"
                  hasheader := hasheader }
    else
      match scan_files fs files with
      | .error e => .error e
      | .ok none => .error .sysExitNoData
      | .ok (some d) => normalize d

/-- A file-system oracle on which every name is a zero-line file. -/
def fsAllEmpty : String → FileInfo := fun _ => ⟨true, .emptyFile⟩

/-- The module-level mutable state `get_dialect` touches: the attributes of
the `csv.Dialect` class object itself.  The stdin branch executes
`dialect = csv.Dialect` — binding the class, not an instance — and then
assigns `dialect.delimiter = ...` etc., which writes class attributes
shared by every caller of the module. -/
structure CsvModuleState where
  dialectClass : DialectV
deriving Repr, DecidableEq

/-- What `get_dialect` hands back: the file branch returns a fresh
`FileTyper`-owned instance (a value), while the stdin branch returns the
`csv.Dialect` class object itself (a reference into `CsvModuleState`). -/
inductive DialectRef where
  | classRef
  | value (d : DialectV)
deriving Repr, DecidableEq

/-- Reading the attributes of a returned dialect object under a given
module state: the class reference reads whatever the class attributes
currently are. -/
def deref (r : DialectRef) (s : CsvModuleState) : DialectV :=
  match r with
  | .classRef => s.dialectClass
  | .value d => d

/-- `get_dialect` with the `csv.Dialect` class attributes made explicit:
the same code as `get_dialect`, but the stdin branch performs its
assignments on the shared class object (mutating `CsvModuleState`) and
returns a reference to it, and the final validation of lines 321-328 also
acts on that shared object.  The second component is the module state when
the call terminates (also on the error paths, whose writes persist). -/
def get_dialect_st (s : CsvModuleState) (fs : String → FileInfo)
    (files : List String) (delimiter : Option String)
    (quotename : Option String) (quotechar : Option String)
    (recdelimiter : Option String) (hasheader : Option Bool) :
    Except GErr DialectRef × CsvModuleState :=
  match files with
  | [] => (.error .indexError, s)
  | f0 :: _ =>
    if f0 = "-" then
      let s1 : CsvModuleState :=
        ⟨{ delimiter := delimiter
           quoting := get_quote_number quotename
           quotechar := quotechar
           lineterminator := "\n"
           hasheader := hasheader }⟩
      let s2 : CsvModuleState :=
        if s1.dialectClass.quoting = none
        then ⟨{ s1.dialectClass with
                quoting := get_quote_number (some "quote_minimal") }⟩
        else s1
      if s2.dialectClass.delimiter = none then (.error .invalidDelimiter, s2)
      else (.ok .classRef, s2)
    else
      match scan_files fs files with
      | .error e => (.error e, s)
      | .ok none => (.error .sysExitNoData, s)
      | .ok (some d) =>
        match normalize d with
        | .error e => (.error e, s)
        | .ok d1 => (.ok (.value d1), s)

/-- `coalesce` operates on untyped Python values; the values relevant to it
are `None`, strings and (from callers) numbers. -/
inductive PyVal where
  | pynone
  | pystr (s : String)
  | pyint (n : Int)
deriving Repr, DecidableEq

/-- `coalesce(default, *args)` from common.py lines 56-63: return the first
argument not in `(None, "'None'", 'None')`, else the default. -/
def coalesce (default : PyVal) : List PyVal → PyVal
  | [] => default
  | a :: rest =>
    if a = .pynone ∨ a = .pystr "'None'" ∨ a = .pystr "None"
    then coalesce default rest
    else a

/-- The membership test of the `coalesce` loop, as a Boolean predicate:
`True` exactly when the value is accepted (returned) by the loop. -/
def coalesce_accepts (a : PyVal) : Bool :=
  !(a == .pynone || a == .pystr "'None'" || a == .pystr "None")

/-- `dialect_del_fixer(values)` from common.py lines 250-261. -/
def dialect_del_fixer (values : String) : String :=
  if values = "\\t" then "\t"
  else if values = "tab" then "\t"
  else if values = "\\n" then "\n"
  else values

/-! ## Helper lemmas -/

theorem get_quote_number_minimal :
    get_quote_number (some "quote_minimal") = some QUOTE_MINIMAL := by decide

/-- Normalization in closed form when the delimiter is set. -/
theorem normalize_eq (d : DialectV) (hd : d.delimiter ≠ none) :
    normalize d = .ok { d with quoting := some (d.quoting.getD QUOTE_MINIMAL) } := by
  obtain ⟨da, db, dc, de, df⟩ := d
  cases db with
  | none => simp_all [normalize, get_quote_number_minimal]
  | some q => simp_all [normalize]

/-- A successful normalization fixes the result's shape and forces the
input delimiter to be set. -/
theorem normalize_ok_fields (d d1 : DialectV) (h : normalize d = .ok d1) :
    d1 = { d with quoting := some (d.quoting.getD QUOTE_MINIMAL) } ∧
    d.delimiter ≠ none := by
  by_cases hd : d.delimiter = none
  · exfalso
    by_cases hq : d.quoting = none <;> simp [normalize, hq, hd] at h
  · rw [normalize_eq d hd] at h
    exact ⟨(Except.ok.inj h).symm, hd⟩

/-- Leading candidates that exist but analyze as empty are skipped. -/
theorem scan_files_skip_empty (fs : String → FileInfo) (pre rest : List String)
    (hpre : ∀ g ∈ pre, (fs g).isfile = true ∧ (fs g).analysis = .emptyFile) :
    scan_files fs (pre ++ rest) = scan_files fs rest := by
  induction pre with
  | nil => rfl
  | cons p pre' ih =>
    have hp := hpre p (List.mem_cons_self _ _)
    have ihh := ih (fun g hg => hpre g (List.mem_cons_of_mem _ hg))
    simp [scan_files, hp.1, hp.2, ihh]

/-- A dialect produced by the candidate loop is the analysis result of one
of the candidates. -/
theorem scan_files_ok_mem (fs : String → FileInfo) (files : List String)
    (d : DialectV) (h : scan_files fs files = .ok (some d)) :
    ∃ fn ∈ files, (fs fn).analysis = .ok d := by
  induction files with
  | nil => simp [scan_files] at h
  | cons f rest ih =>
    by_cases hf : (fs f).isfile = false
    · simp [scan_files, hf] at h
    · cases ha : (fs f).analysis with
      | ok d0 =>
        simp [scan_files, hf, ha] at h
        exact ⟨f, List.mem_cons_self _ _, by rw [ha, h]⟩
      | emptyFile =>
        simp only [scan_files, if_neg hf, ha] at h
        obtain ⟨fn, hfn, hh⟩ := ih h
        exact ⟨fn, List.mem_cons_of_mem _ hfn, hh⟩
      | otherError m => simp [scan_files, hf, ha] at h

/-- Every successful `get_dialect` call routes its result through the
final validation of one pre-normalization dialect. -/
theorem get_dialect_ok_normalize (fs : String → FileInfo) (files : List String)
    (delim qn qc rd : Option String) (hh : Option Bool) (d : DialectV)
    (h : get_dialect fs files delim qn qc rd hh = .ok d) :
    ∃ d0, normalize d0 = .ok d := by
  cases files with
  | nil => simp [get_dialect] at h
  | cons f0 tl =>
    by_cases hf : f0 = "-"
    · simp only [get_dialect, if_pos hf] at h
      exact ⟨_, h⟩
    · simp only [get_dialect, if_neg hf] at h
      cases hscan : scan_files fs (f0 :: tl) with
      | error e => rw [hscan] at h; simp at h
      | ok od =>
        cases od with
        | none => rw [hscan] at h; simp at h
        | some d0 =>
          rw [hscan] at h
          simp at h
          exact ⟨d0, h⟩

/-! ## C9: coalesce -/

/-- C9: `coalesce(d, *args)` returns the first element of `args` that is
not `None` and not one of the literal strings `'None'` or `"'None'"`; when
every element is one of those three values (or `args` is empty) it returns
the default — in particular a genuine string `'None'` passed as a value is
treated as absent. -/
theorem coalesce_first_acceptable (default : PyVal) (args : List PyVal) :
    coalesce default args = (args.find? coalesce_accepts).getD default ∧
    coalesce default (.pystr "None" :: args) = coalesce default args := by
  constructor
  · induction args with
    | nil => rfl
    | cons a rest ih =>
      by_cases h : a = PyVal.pynone ∨ a = PyVal.pystr "'None'" ∨ a = PyVal.pystr "None"
      · have hb : coalesce_accepts a = false := by
          rcases h with h | h | h <;> subst h <;> rfl
        rw [coalesce, if_pos h, List.find?, hb, ih]
      · have hb : coalesce_accepts a = true := by
          simp only [coalesce_accepts, Bool.not_eq_true', Bool.or_eq_false_iff,
            beq_eq_false_iff_ne, ne_eq]
          push_neg at h
          exact ⟨⟨h.1, h.2.1⟩, h.2.2⟩
        rw [coalesce, if_neg h, List.find?, hb]
        rfl
  · rw [coalesce, if_pos (Or.inr (Or.inr rfl))]

/-! ## C10: dialect_del_fixer -/

/-- C10: `dialect_del_fixer` maps `'\\t'` and `'tab'` to a tab character,
`'\\n'` to a newline character, and is the identity on every other string;
in particular it never alters a single-character delimiter. -/
theorem dialect_del_fixer_spec :
    dialect_del_fixer "\\t" = "\t" ∧
    dialect_del_fixer "tab" = "\t" ∧
    dialect_del_fixer "\\n" = "\n" ∧
    (∀ s : String, s ≠ "\\t" → s ≠ "tab" → s ≠ "\\n" → dialect_del_fixer s = s) ∧
    (∀ s : String, s.length = 1 → dialect_del_fixer s = s) := by
  refine ⟨rfl, rfl, rfl, ?_, ?_⟩
  · intro s h1 h2 h3
    simp [dialect_del_fixer, h1, h2, h3]
  · intro s hlen
    have h1 : s ≠ "\\t" := fun e => absurd (e ▸ hlen) (by decide)
    have h2 : s ≠ "tab" := fun e => absurd (e ▸ hlen) (by decide)
    have h3 : s ≠ "\\n" := fun e => absurd (e ▸ hlen) (by decide)
    simp [dialect_del_fixer, h1, h2, h3]

/-- Witness for C10 at the concrete one-character delimiter `","`. -/
theorem dialect_del_fixer_spec_witness : dialect_del_fixer "," = "," :=
  dialect_del_fixer_spec.2.2.2.1 "," (by decide) (by decide) (by decide)

/-! ## C1, C2, C7: the candidate-file loop -/

/-- C1: with a non-stdin file list, candidates are tried in the order
given; a candidate whose analysis raises the empty-file error is skipped,
and the resolver stops at the first candidate whose analysis succeeds,
returning that candidate's dialect (with only the documented quoting
default applied). -/
theorem get_dialect_first_success (fs : String → FileInfo)
    (pre rest : List String) (f : String) (d : DialectV)
    (delim qn qc rd : Option String) (hh : Option Bool)
    (hhead : (pre ++ f :: rest).head? ≠ some "-")
    (hpre : ∀ g ∈ pre, (fs g).isfile = true ∧ (fs g).analysis = .emptyFile)
    (hf : (fs f).isfile = true) (hfa : (fs f).analysis = .ok d)
    (hd : d.delimiter ≠ none) :
    get_dialect fs (pre ++ f :: rest) delim qn qc rd hh =
      .ok { d with quoting := some (d.quoting.getD QUOTE_MINIMAL) } := by
  have hscan : scan_files fs (pre ++ f :: rest) = .ok (some d) := by
    rw [scan_files_skip_empty fs pre (f :: rest) hpre]
    simp [scan_files, hf, hfa]
  cases hp : pre with
  | nil =>
    subst hp
    have hf0 : f ≠ "-" := by simpa using hhead
    simp only [List.nil_append] at hscan ⊢
    simp only [get_dialect, if_neg hf0, hscan]
    exact normalize_eq d hd
  | cons p pre' =>
    subst hp
    have hf0 : p ≠ "-" := by simpa using hhead
    simp only [List.cons_append] at hscan ⊢
    simp only [get_dialect, if_neg hf0, hscan]
    exact normalize_eq d hd

/-- The spec's multi-file example: `data.csv` holds pipe-delimited
records; its analysis yields this dialect. -/
def dPipe : DialectV :=
  { delimiter := some "|", quoting := some QUOTE_NONE,
    quotechar := some "\"", lineterminator := "\n", hasheader := some false }

/-- Oracle for the spec's multi-file example: every file exists,
`data.csv` analyzes to `dPipe`, everything else is empty. -/
def fsDemo : String → FileInfo := fun fn =>
  if fn = "data.csv" then ⟨true, .ok dPipe⟩ else ⟨true, .emptyFile⟩

/-- Witness for C1: `[empty.csv, data.csv]` resolves to `data.csv`'s
dialect and does not fail. -/
theorem get_dialect_first_success_witness :
    get_dialect fsDemo ["empty.csv", "data.csv"] none none none none none =
      .ok { dPipe with quoting := some (dPipe.quoting.getD QUOTE_MINIMAL) } :=
  get_dialect_first_success fsDemo ["empty.csv"] [] "data.csv" dPipe
    none none none none none (by decide) (by decide) (by decide) (by decide)
    (by decide)

/-- C2: when the invocation is not stdin and every candidate file exists
but analyzes as empty, the resolver exits with `errno.ENODATA` instead of
returning a dialect. -/
theorem get_dialect_all_empty (fs : String → FileInfo) (files : List String)
    (delim qn qc rd : Option String) (hh : Option Bool)
    (hne : files ≠ [])
    (hhead : files.head? ≠ some "-")
    (hall : ∀ g ∈ files, (fs g).isfile = true ∧ (fs g).analysis = .emptyFile) :
    get_dialect fs files delim qn qc rd hh = .error .sysExitNoData := by
  have hscan : scan_files fs files = .ok none := by
    have := scan_files_skip_empty fs files [] hall
    simpa using this
  cases files with
  | nil => exact absurd rfl hne
  | cons f0 tl =>
    have hf0 : f0 ≠ "-" := by simpa using hhead
    simp [get_dialect, if_neg hf0, hscan]

/-- Witness for C2: two empty candidate files yield the no-data exit. -/
theorem get_dialect_all_empty_witness :
    get_dialect fsAllEmpty ["empty1.csv", "empty2.csv"] none none none none none =
      .error .sysExitNoData :=
  get_dialect_all_empty fsAllEmpty ["empty1.csv", "empty2.csv"]
    none none none none none (by decide) (by decide) (by decide)

/-- C7: only the empty-file error is caught by the candidate loop.  A
candidate that is not an existing file raises `ValueError` immediately —
regardless of any remaining candidates — and any other analysis error
propagates unmodified. -/
theorem get_dialect_error_propagation (fs : String → FileInfo)
    (pre rest : List String) (f : String)
    (delim qn qc rd : Option String) (hh : Option Bool)
    (hhead : (pre ++ f :: rest).head? ≠ some "-")
    (hpre : ∀ g ∈ pre, (fs g).isfile = true ∧ (fs g).analysis = .emptyFile) :
    ((fs f).isfile = false →
      get_dialect fs (pre ++ f :: rest) delim qn qc rd hh =
        .error (.fileDoesNotExist f)) ∧
    (∀ m, (fs f).isfile = true → (fs f).analysis = .otherError m →
      get_dialect fs (pre ++ f :: rest) delim qn qc rd hh =
        .error (.analysisError m)) := by
  constructor
  · intro hnf
    have hscan : scan_files fs (pre ++ f :: rest) = .error (.fileDoesNotExist f) := by
      rw [scan_files_skip_empty fs pre (f :: rest) hpre]
      simp [scan_files, hnf]
    cases hp : pre with
    | nil =>
      subst hp
      have hf0 : f ≠ "-" := by simpa using hhead
      simp only [List.nil_append] at hscan ⊢
      simp [get_dialect, if_neg hf0, hscan]
    | cons p pre' =>
      subst hp
      have hf0 : p ≠ "-" := by simpa using hhead
      simp only [List.cons_append] at hscan ⊢
      simp [get_dialect, if_neg hf0, hscan]
  · intro m hf hfa
    have hscan : scan_files fs (pre ++ f :: rest) = .error (.analysisError m) := by
      rw [scan_files_skip_empty fs pre (f :: rest) hpre]
      simp [scan_files, hf, hfa]
    cases hp : pre with
    | nil =>
      subst hp
      have hf0 : f ≠ "-" := by simpa using hhead
      simp only [List.nil_append] at hscan ⊢
      simp [get_dialect, if_neg hf0, hscan]
    | cons p pre' =>
      subst hp
      have hf0 : p ≠ "-" := by simpa using hhead
      simp only [List.cons_append] at hscan ⊢
      simp [get_dialect, if_neg hf0, hscan]

/-- Oracle on which `ghost.csv` is not an existing file. -/
def fsMissing : String → FileInfo := fun fn =>
  if fn = "ghost.csv" then ⟨false, .emptyFile⟩ else ⟨true, .emptyFile⟩

/-- Witness for C7: a missing candidate fails immediately with the
file-does-not-exist error even though a further candidate follows. -/
theorem get_dialect_error_propagation_witness :
    get_dialect fsMissing ["ghost.csv", "later.csv"] none none none none none =
      .error (.fileDoesNotExist "ghost.csv") :=
  (get_dialect_error_propagation fsMissing [] ["later.csv"] "ghost.csv"
    none none none none none (by decide) (by decide)).1 (by decide)

/-! ## C3, C4, C5, C6: stdin branch and post-resolution validation -/

/-- Counterexample to C3: with delimiter hint `","` and quote character
hint `","`, the resolver returns a dialect whose delimiter equals its quote
character instead of raising — the code only checks for an unset
delimiter, never for equality with the quote character. -/
theorem get_dialect_delim_eq_quote_counterexample :
    ∃ d : DialectV,
      get_dialect fsAllEmpty ["-"] (some ",") (some "quote_none") (some ",")
          none none = .ok d ∧
      d.delimiter = d.quotechar ∧ d.delimiter ≠ none :=
  ⟨{ delimiter := some ",", quoting := some QUOTE_NONE, quotechar := some ",",
     lineterminator := "\n", hasheader := none }, rfl, rfl, by decide⟩

/-- C3 (amended): the resolver raises the invalid-delimiter `ValueError`
exactly when the delimiter ends up unset; every returned dialect has a set
delimiter, but equality of delimiter and quote character is never
checked. -/
theorem get_dialect_invalid_delimiter :
    (∀ (fs : String → FileInfo) (files : List String)
        (delim qn qc rd : Option String) (hh : Option Bool) (d : DialectV),
       get_dialect fs files delim qn qc rd hh = .ok d → d.delimiter ≠ none) ∧
    (∀ (fs : String → FileInfo) (rest : List String)
        (qn qc rd : Option String) (hh : Option Bool),
       get_dialect fs ("-" :: rest) none qn qc rd hh =
         .error .invalidDelimiter) := by
  constructor
  · intro fs files delim qn qc rd hh d h
    obtain ⟨d0, hn⟩ := get_dialect_ok_normalize fs files delim qn qc rd hh d h
    obtain ⟨heq, hd0⟩ := normalize_ok_fields d0 d hn
    rw [heq]
    exact hd0
  · intro fs rest qn qc rd hh
    by_cases hq : get_quote_number qn = none <;>
      simp [get_dialect, normalize, hq]

/-- Witness for C3 (amended), at a returned dialect produced with a
semicolon delimiter hint. -/
theorem get_dialect_invalid_delimiter_witness :
    ({ delimiter := some ";", quoting := some QUOTE_ALL, quotechar := some "\"",
       lineterminator := "\n", hasheader := none } : DialectV).delimiter ≠ none :=
  get_dialect_invalid_delimiter.1 fsAllEmpty ["-"] (some ";") (some "quote_all")
    (some "\"") none none
    { delimiter := some ";", quoting := some QUOTE_ALL, quotechar := some "\"",
      lineterminator := "\n", hasheader := none } rfl

/-- Counterexample to C4: a stdin invocation without a delimiter hint does
not fail with a configuration error before resolution; it runs the stdin
branch and fails only at the final validation, with the invalid-delimiter
`ValueError` — the stdin delimiter check exists in `ArgProcessor.__init__`
only as commented-out code. -/
theorem get_dialect_stdin_no_delim_counterexample :
    get_dialect fsAllEmpty ["-"] none (some "quote_none") (some "\"")
        none none = .error .invalidDelimiter ∧
    GErr.invalidDelimiter ≠ GErr.configurationError :=
  ⟨rfl, by decide⟩

/-- C4 (amended): when the first input is the stdin marker, the resolver
consults no file, builds the dialect entirely from the caller-supplied
hints (with line terminator fixed to a newline), and when the delimiter
hint is absent it fails with the invalid-delimiter `ValueError` of the
post-resolution validation rather than a distinct configuration error. -/
theorem get_dialect_stdin :
    (∀ (fs fs2 : String → FileInfo) (rest : List String)
        (delim qn qc rd : Option String) (hh : Option Bool),
       get_dialect fs ("-" :: rest) delim qn qc rd hh =
         get_dialect fs2 ("-" :: rest) delim qn qc rd hh) ∧
    (∀ (fs : String → FileInfo) (rest : List String) (s : String)
        (qn qc rd : Option String) (hh : Option Bool),
       get_dialect fs ("-" :: rest) (some s) qn qc rd hh =
         .ok { delimiter := some s,
               quoting := some ((get_quote_number qn).getD QUOTE_MINIMAL),
               quotechar := qc, lineterminator := "\n", hasheader := hh }) ∧
    (∀ (fs : String → FileInfo) (rest : List String)
        (qn qc rd : Option String) (hh : Option Bool),
       get_dialect fs ("-" :: rest) none qn qc rd hh =
         .error .invalidDelimiter) := by
  refine ⟨?_, ?_, ?_⟩
  · intro fs fs2 rest delim qn qc rd hh
    simp [get_dialect]
  · intro fs rest s qn qc rd hh
    have h := normalize_eq
      { delimiter := some s, quoting := get_quote_number qn, quotechar := qc,
        lineterminator := "\n", hasheader := hh } (by simp)
    simp only [get_dialect, if_pos rfl]
    exact h
  · intro fs rest qn qc rd hh
    by_cases hq : get_quote_number qn = none <;>
      simp [get_dialect, normalize, hq]

/-- C5: the post-resolution validation replaces an unset quoting mode by
`QUOTE_MINIMAL`, leaves a set quoting mode and every other field
untouched, and turns an unset delimiter into an error rather than a
default; every dialect the resolver returns has its quoting mode set. -/
theorem get_dialect_quoting_default :
    (∀ d : DialectV, d.quoting = none → d.delimiter ≠ none →
       normalize d = .ok { d with quoting := some QUOTE_MINIMAL }) ∧
    (∀ d : DialectV, d.quoting ≠ none → d.delimiter ≠ none →
       normalize d = .ok d) ∧
    (∀ d : DialectV, d.delimiter = none →
       normalize d = .error .invalidDelimiter) ∧
    (∀ (fs : String → FileInfo) (files : List String)
        (delim qn qc rd : Option String) (hh : Option Bool) (d : DialectV),
       get_dialect fs files delim qn qc rd hh = .ok d → d.quoting ≠ none) := by
  refine ⟨?_, ?_, ?_, ?_⟩
  · intro d hq hd
    rw [normalize_eq d hd]
    simp [hq]
  · intro d hq hd
    obtain ⟨da, db, dc, de, df⟩ := d
    cases db with
    | none => exact absurd rfl hq
    | some q => rw [normalize_eq _ hd]; rfl
  · intro d hd
    by_cases hq : d.quoting = none <;> simp [normalize, hq, hd]
  · intro fs files delim qn qc rd hh d h
    obtain ⟨d0, hn⟩ := get_dialect_ok_normalize fs files delim qn qc rd hh d h
    obtain ⟨heq, hd0⟩ := normalize_ok_fields d0 d hn
    rw [heq]
    simp

/-- Witness for C5: a dialect with unset quoting is normalized to
`QUOTE_MINIMAL`. -/
theorem get_dialect_quoting_default_witness :
    normalize { delimiter := some ",", quoting := none, quotechar := some "\"",
                lineterminator := "\n", hasheader := none } =
      .ok { delimiter := some ",", quoting := some QUOTE_MINIMAL,
            quotechar := some "\"", lineterminator := "\n", hasheader := none } :=
  get_dialect_quoting_default.1
    { delimiter := some ",", quoting := none, quotechar := some "\"",
      lineterminator := "\n", hasheader := none } rfl (by decide)

/-- The quoting values the spec's data model allows before resolution:
unset, or one of the four `csv` constants.  Per the spec, `FileTyper`
(absent from the sources) only produces such quoting values. -/
def quotingValid (q : Option Nat) : Prop :=
  q = none ∨ q = some QUOTE_ALL ∨ q = some QUOTE_MINIMAL ∨
  q = some QUOTE_NONNUMERIC ∨ q = some QUOTE_NONE

instance : DecidablePred quotingValid := fun q => by
  unfold quotingValid
  infer_instance

/-- Quote-name lookup only produces allowed quoting values. -/
theorem get_quote_number_valid (qn : Option String) :
    quotingValid (get_quote_number qn) := by
  cases qn with
  | none => exact Or.inl rfl
  | some s =>
    simp only [get_quote_number]
    split_ifs <;> simp [quotingValid]

/-- Counterexample to C6: the resolver can return a dialect whose
delimiter equals its quote character (pipe for both), so the claimed
never-equal invariant fails; the quoting-enumeration half of the claim is
what survives. -/
theorem get_dialect_invariant_counterexample :
    ∃ d : DialectV,
      get_dialect fsAllEmpty ["-"] (some "|") (some "quote_all") (some "|")
          none none = .ok d ∧
      d.delimiter = d.quotechar ∧ d.quotechar ≠ none :=
  ⟨{ delimiter := some "|", quoting := some QUOTE_ALL, quotechar := some "|",
     lineterminator := "\n", hasheader := none }, rfl, rfl, by decide⟩

/-- C6 (amended): provided file analysis yields only allowed quoting
values (the spec's contract for the absent `FileTyper`), every dialect the
resolver returns has a quoting mode among the four enumerated `csv`
constants; the delimiter/quote-character disequality, however, is not
enforced. -/
theorem get_dialect_quoting_enum (fs : String → FileInfo) (files : List String)
    (delim qn qc rd : Option String) (hh : Option Bool) (d : DialectV)
    (hfs : ∀ fn d0, (fs fn).analysis = .ok d0 → quotingValid d0.quoting)
    (h : get_dialect fs files delim qn qc rd hh = .ok d) :
    d.quoting = some QUOTE_ALL ∨ d.quoting = some QUOTE_MINIMAL ∨
    d.quoting = some QUOTE_NONNUMERIC ∨ d.quoting = some QUOTE_NONE := by
  cases files with
  | nil => simp [get_dialect] at h
  | cons f0 tl =>
    by_cases hf : f0 = "-"
    · simp only [get_dialect, if_pos hf] at h
      obtain ⟨heq, hd0⟩ := normalize_ok_fields _ d h
      rw [heq]
      rcases get_quote_number_valid qn with hv | hv | hv | hv | hv <;> simp [hv]
    · simp only [get_dialect, if_neg hf] at h
      cases hscan : scan_files fs (f0 :: tl) with
      | error e => rw [hscan] at h; simp at h
      | ok od =>
        cases od with
        | none => rw [hscan] at h; simp at h
        | some d0 =>
          rw [hscan] at h
          simp at h
          obtain ⟨fn, hfn, ha⟩ := scan_files_ok_mem fs (f0 :: tl) d0 hscan
          obtain ⟨heq, hd0⟩ := normalize_ok_fields d0 d h
          rw [heq]
          rcases hfs fn d0 ha with hv | hv | hv | hv | hv <;> simp [hv]

/-- Witness for C6 (amended) on the multi-file example oracle. -/
theorem get_dialect_quoting_enum_witness :
    dPipe.quoting = some QUOTE_ALL ∨ dPipe.quoting = some QUOTE_MINIMAL ∨
    dPipe.quoting = some QUOTE_NONNUMERIC ∨ dPipe.quoting = some QUOTE_NONE :=
  get_dialect_quoting_enum fsDemo ["empty.csv", "data.csv"] none none none
    none none dPipe
    (by
      intro fn d0 hfd
      by_cases hn : fn = "data.csv"
      · simp only [fsDemo, if_pos hn] at hfd
        cases hfd
        decide
      · simp [fsDemo, hn] at hfd)
    rfl

/-! ## C8: shared mutable state across invocations -/

/-- Arbitrary initial attributes of the `csv.Dialect` class. -/
def s0 : CsvModuleState := ⟨⟨none, none, none, "", none⟩⟩

/-- A first stdin invocation hinting a comma delimiter. -/
def call1 : Except GErr DialectRef × CsvModuleState :=
  get_dialect_st s0 fsAllEmpty ["-"] (some ",") (some "quote_none")
    (some "\"") none none

/-- A second stdin invocation, after the first, hinting a pipe delimiter. -/
def call2 : Except GErr DialectRef × CsvModuleState :=
  get_dialect_st call1.2 fsAllEmpty ["-"] (some "|") (some "quote_none")
    (some "\"") none none

/-- C8 fails on the code: the stdin branch binds the `csv.Dialect` class
itself and writes its attributes, so both invocations return the same
shared class object, and the second invocation overwrites the dialect the
first one returned — its delimiter reads `"|"` afterwards, no longer
`","`. -/
theorem get_dialect_st_shared_class :
    call1.1 = .ok DialectRef.classRef ∧
    call2.1 = .ok DialectRef.classRef ∧
    (deref DialectRef.classRef call1.2).delimiter = some "," ∧
    (deref DialectRef.classRef call2.2).delimiter = some "|" ∧
    deref DialectRef.classRef call1.2 ≠ deref DialectRef.classRef call2.2 :=
  ⟨rfl, rfl, rfl, rfl, by decide⟩

end Gristle
